import Mathlib

/-!
Verification of the peer-recognition credit ledger.

The data model and operations below are a shallow embedding of the
repository's core (`src/models.py`, `src/services.py`): students hold
integer credit balances, recognitions transfer credits between students,
endorsements attach to recognitions, redemptions convert credits to
vouchers, and a monthly reset routine refreshes balances with a bounded
carry-forward.  The SQLAlchemy store becomes explicit lists with
per-table autoincrement counters; Python exceptions become an `Except`
error type with one constructor per distinct raise site; `datetime`
values become a record ordered lexicographically, mirroring Python's
`datetime` comparison.
-/

namespace Ledger

/-- Embeds Python `datetime`: ordered lexicographically by
(year, month, day, hour, minute, second, microsecond). -/
structure DateTime where
  year : Nat
  month : Nat
  day : Nat
  hour : Nat
  minute : Nat
  second : Nat
  microsecond : Nat
deriving DecidableEq, Repr

/-- Python `datetime` comparison: lexicographic on the components. -/
def DateTime.lt (a b : DateTime) : Bool :=
  (a.year < b.year) ||
  (a.year == b.year && ((a.month < b.month) ||
  (a.month == b.month && ((a.day < b.day) ||
  (a.day == b.day && ((a.hour < b.hour) ||
  (a.hour == b.hour && ((a.minute < b.minute) ||
  (a.minute == b.minute && ((a.second < b.second) ||
  (a.second == b.second && (a.microsecond < b.microsecond))))))))))))

/-- `d.replace(day=1, hour=0, minute=0, second=0, microsecond=0)` from
`ensure_monthly_reset`. -/
def DateTime.monthFloor (a : DateTime) : DateTime :=
  { a with day := 1, hour := 0, minute := 0, second := 0, microsecond := 0 }

/-- `Student` model: primary-key id, name, balance and counters
(`models.py`). -/
structure Student where
  id : Nat
  name : String
  current_balance : Int
  credits_received_total : Int
  monthly_sent_this_month : Int
  last_credit_reset : Option DateTime
deriving DecidableEq, Repr

/-- `Recognition` model (`models.py`). -/
structure Recognition where
  id : Nat
  sender_id : Nat
  receiver_id : Nat
  credits : Int
  message : Option String
  created_at : DateTime
deriving DecidableEq, Repr

/-- `Endorsement` model (`models.py`). -/
structure Endorsement where
  id : Nat
  recognition_id : Nat
  endorser_id : Nat
  created_at : DateTime
deriving DecidableEq, Repr

/-- `Redemption` model (`models.py`). -/
structure Redemption where
  id : Nat
  student_id : Nat
  credits_redeemed : Int
  voucher_value_inr : Int
  created_at : DateTime
deriving DecidableEq, Repr

/-- `MonthlyResetLog` model (`models.py`). -/
structure MonthlyResetLog where
  id : Nat
  student_id : Nat
  month : Nat
  year : Nat
  carried_forward : Int
  created_at : DateTime
deriving DecidableEq, Repr

/-- The persistent store: one list per table plus an autoincrement
counter per table for primary-key assignment on insert. -/
structure Store where
  students : List Student
  recognitions : List Recognition
  endorsements : List Endorsement
  redemptions : List Redemption
  resetLogs : List MonthlyResetLog
  nextRecognitionId : Nat
  nextEndorsementId : Nat
  nextRedemptionId : Nat
  nextResetLogId : Nat
deriving DecidableEq, Repr

/-- One constructor per distinct `raise ValueError` site in
`services.py`; the constructor arguments carry the data interpolated
into the corresponding message. -/
inductive Err where
  | studentNotFound (id : Nat)
  | recognitionNotFound (id : Nat)
  | endorserNotFound (id : Nat)
  | selfTransfer
  | insufficientBalance (balance attempted : Int)
  | monthlyLimitExceeded (sent attempted : Int)
  | invalidAmount
  | duplicateEndorsement
deriving DecidableEq, Repr

/-- `Student.query.get(sid)`: primary-key lookup. -/
def findStudent (st : Store) (sid : Nat) : Option Student :=
  st.students.find? (fun s => s.id == sid)

/-- Update (in place) the student row with the given primary key. -/
def updStudents (l : List Student) (sid : Nat) (f : Student → Student) :
    List Student :=
  l.map (fun s => if s.id == sid then f s else s)

/-- `services.create_recognition(sender_id, receiver_id, credits,
message)`; `now` stands for the `datetime.utcnow()` call. -/
def create_recognition (st : Store) (sender_id receiver_id : Nat)
    (credits : Int) (message : Option String) (now : DateTime) :
    Except Err (Recognition × Store) :=
  match findStudent st sender_id with
  | none => .error (.studentNotFound sender_id)
  | some sender =>
    match findStudent st receiver_id with
    | none => .error (.studentNotFound receiver_id)
    | some _receiver =>
      if sender_id == receiver_id then
        .error .selfTransfer
      else if credits > sender.current_balance then
        .error (.insufficientBalance sender.current_balance credits)
      else if sender.monthly_sent_this_month + credits > 100 then
        .error (.monthlyLimitExceeded sender.monthly_sent_this_month credits)
      else
        let recognition : Recognition :=
          { id := st.nextRecognitionId, sender_id := sender_id,
            receiver_id := receiver_id, credits := credits,
            message := message, created_at := now }
        let afterSender := updStudents st.students sender_id (fun s =>
          { s with current_balance := s.current_balance - credits,
                   monthly_sent_this_month :=
                     s.monthly_sent_this_month + credits })
        let afterBoth := updStudents afterSender receiver_id (fun s =>
          { s with current_balance := s.current_balance + credits,
                   credits_received_total :=
                     s.credits_received_total + credits })
        .ok (recognition,
          { st with students := afterBoth,
                    recognitions := st.recognitions ++ [recognition],
                    nextRecognitionId := st.nextRecognitionId + 1 })

/-- `services.endorse(recognition_id, endorser_id)`. -/
def endorse (st : Store) (recognition_id endorser_id : Nat)
    (now : DateTime) : Except Err (Endorsement × Store) :=
  match st.recognitions.find? (fun r => r.id == recognition_id) with
  | none => .error (.recognitionNotFound recognition_id)
  | some _ =>
    match findStudent st endorser_id with
    | none => .error (.endorserNotFound endorser_id)
    | some _ =>
      match st.endorsements.find? (fun e =>
          e.recognition_id == recognition_id &&
          e.endorser_id == endorser_id) with
      | some _ => .error .duplicateEndorsement
      | none =>
        let endorsement : Endorsement :=
          { id := st.nextEndorsementId, recognition_id := recognition_id,
            endorser_id := endorser_id, created_at := now }
        .ok (endorsement,
          { st with endorsements := st.endorsements ++ [endorsement],
                    nextEndorsementId := st.nextEndorsementId + 1 })

/-- `services.redeem(student_id, credits_to_redeem)`. -/
def redeem (st : Store) (student_id : Nat) (credits_to_redeem : Int)
    (now : DateTime) : Except Err (Redemption × Store) :=
  match findStudent st student_id with
  | none => .error (.studentNotFound student_id)
  | some student =>
    if credits_to_redeem ≤ 0 then
      .error .invalidAmount
    else if student.current_balance < credits_to_redeem then
      .error (.insufficientBalance student.current_balance
        credits_to_redeem)
    else
      let voucher_value_inr := credits_to_redeem * 5
      let redemption : Redemption :=
        { id := st.nextRedemptionId, student_id := student_id,
          credits_redeemed := credits_to_redeem,
          voucher_value_inr := voucher_value_inr, created_at := now }
      .ok (redemption,
        { st with
            students := updStudents st.students student_id (fun s =>
              { s with current_balance :=
                  s.current_balance - credits_to_redeem }),
            redemptions := st.redemptions ++ [redemption],
            nextRedemptionId := st.nextRedemptionId + 1 })

/-- The "needs reset" test of `services.ensure_monthly_reset`: never
reset, or last reset strictly before the current calendar month. -/
def needsReset (s : Student) (now : DateTime) : Bool :=
  match s.last_credit_reset with
  | none => true
  | some d => DateTime.lt d.monthFloor now.monthFloor

/-- `services.ensure_monthly_reset(student)`; the student is addressed
by primary key and `now` stands for `datetime.utcnow()`.  Returns the
`True`/`False` result paired with the committed store. -/
def ensure_monthly_reset (st : Store) (sid : Nat) (now : DateTime) :
    Bool × Store :=
  match findStudent st sid with
  | none => (false, st)
  | some student =>
    if needsReset student now then
      let carry_forward := min 50 student.current_balance
      let log : MonthlyResetLog :=
        { id := st.nextResetLogId, student_id := sid,
          month := now.month, year := now.year,
          carried_forward := carry_forward, created_at := now }
      (true,
        { st with
            students := updStudents st.students sid (fun s =>
              { s with
                  current_balance := 100 + min 50 s.current_balance,
                  monthly_sent_this_month := 0,
                  last_credit_reset := some now }),
            resetLogs := st.resetLogs ++ [log],
            nextResetLogId := st.nextResetLogId + 1 })
    else (false, st)

/-- The loop body of `run_monthly_reset_for_all_students`, folded over
an explicit list of student ids; each step is its own committed
transaction. -/
def runResetList (st : Store) (ids : List Nat) (now : DateTime) :
    Nat × Store :=
  ids.foldl (fun acc sid =>
    let r := ensure_monthly_reset acc.2 sid now
    (acc.1 + (if r.1 then 1 else 0), r.2)) (0, st)

/-- `services.run_monthly_reset_for_all_students()`: iterate the
snapshot of all students, reset each where needed, return the count. -/
def run_monthly_reset_for_all_students (st : Store) (now : DateTime) :
    Nat × Store :=
  runResetList st (st.students.map (fun s => s.id)) now

/-- One leaderboard output row (`services.leaderboard` result dict). -/
structure LBEntry where
  student_id : Nat
  name : String
  credits_received_total : Int
  recognition_count : Nat
  endorsement_count : Nat
deriving DecidableEq, Repr

/-- The rows the second LEFT OUTER JOIN of `services.leaderboard`
produces for one recognition: its endorsements, or a null column. -/
def joinBlock (st : Store) (r : Recognition) :
    List (Option Nat × Option Nat) :=
  let es := st.endorsements.filter (fun e => e.recognition_id == r.id)
  if es.isEmpty then [(some r.id, none)]
  else es.map (fun e => (some r.id, some e.id))

/-- The rows the double LEFT OUTER JOIN of `services.leaderboard`
produces for one student: recognitions received (or a null row), each
joined with its endorsements (or a null column). -/
def joinRowsFor (st : Store) (s : Student) :
    List (Option Nat × Option Nat) :=
  let rs := st.recognitions.filter (fun r => r.receiver_id == s.id)
  if rs.isEmpty then [(none, none)]
  else rs.flatMap (joinBlock st)

/-- SQL `COUNT(DISTINCT x)`: distinct non-null values. -/
def countDistinct (l : List (Option Nat)) : Nat :=
  (l.filterMap id).dedup.length

/-- The grouped row of `services.leaderboard` for one student. -/
def lbRow (st : Store) (s : Student) : LBEntry :=
  let rows := joinRowsFor st s
  { student_id := s.id, name := s.name,
    credits_received_total := s.credits_received_total,
    recognition_count := countDistinct (rows.map Prod.fst),
    endorsement_count := countDistinct (rows.map Prod.snd) }

/-- `ORDER BY credits_received_total DESC, id ASC` as a Boolean
total preorder. -/
def lbLe (a b : LBEntry) : Bool :=
  (b.credits_received_total < a.credits_received_total) ||
  (a.credits_received_total == b.credits_received_total &&
    a.student_id ≤ b.student_id)

/-- `services.leaderboard(limit)`: one grouped row per student, ordered
by total received descending then id ascending, truncated to `limit`. -/
def leaderboard (st : Store) (limit : Nat) : List LBEntry :=
  (((st.students.map (lbRow st)).mergeSort lbLe).take limit)

/-- Number of recognitions received by the student with this id. -/
def recCount (st : Store) (sid : Nat) : Nat :=
  (st.recognitions.filter (fun r => r.receiver_id == sid)).length

/-- Number of endorsements attached to any recognition received by the
student with this id. -/
def endCount (st : Store) (sid : Nat) : Nat :=
  (st.endorsements.filter (fun e => st.recognitions.any (fun r =>
    r.id == e.recognition_id && r.receiver_id == sid))).length

/-- The uniqueness invariant backing the `unique_recognition_endorser`
constraint: no two endorsements share a (recognition, endorser) pair. -/
def endorsementPairsUnique (l : List Endorsement) : Prop :=
  l.Pairwise (fun a b =>
    ¬(a.recognition_id = b.recognition_id ∧ a.endorser_id = b.endorser_id))

/-- One committed call of a core service operation. -/
inductive Op where
  | createRec (sender receiver : Nat) (credits : Int)
      (message : Option String) (now : DateTime)
  | endorseOp (recognition endorser : Nat) (now : DateTime)
  | redeemOp (student : Nat) (credits : Int) (now : DateTime)
  | ensureResetOp (student : Nat) (now : DateTime)
  | runAllResetsOp (now : DateTime)

/-- Commit one operation: on a validation error nothing was mutated, so
the store is unchanged. -/
def applyOp (st : Store) (op : Op) : Store :=
  match op with
  | .createRec a b c m now =>
    match create_recognition st a b c m now with
    | .ok (_, st') => st'
    | .error _ => st
  | .endorseOp r e now =>
    match endorse st r e now with
    | .ok (_, st') => st'
    | .error _ => st
  | .redeemOp s c now =>
    match redeem st s c now with
    | .ok (_, st') => st'
    | .error _ => st
  | .ensureResetOp s now => (ensure_monthly_reset st s now).2
  | .runAllResetsOp now => (run_monthly_reset_for_all_students st now).2

/-- The credit amount supplied to an operation is a positive integer. -/
def opPosCredits : Op → Prop
  | .createRec _ _ c _ _ => 0 < c
  | .redeemOp _ c _ => 0 < c
  | _ => True

/-- Concrete timestamps for instance checks. -/
def dt1 : DateTime := ⟨2025, 1, 15, 10, 30, 0, 0⟩

/-- A later time in the same calendar month as `dt1`. -/
def dt2 : DateTime := ⟨2025, 1, 28, 9, 0, 0, 0⟩

/-- A time in the month after `dt1`. -/
def dt3 : DateTime := ⟨2025, 2, 1, 0, 5, 0, 0⟩

/-- Concrete student for instance checks. -/
def demoA : Student := ⟨1, "A", 100, 0, 0, none⟩

/-- Concrete student for instance checks. -/
def demoB : Student := ⟨2, "B", 50, 10, 20, none⟩

/-- Concrete student close to the monthly send limit. -/
def demoC : Student := ⟨3, "C", 200, 0, 95, none⟩

/-- A three-student store with empty history. -/
def demoStore : Store := ⟨[demoA, demoB, demoC], [], [], [], [], 1, 1, 1, 1⟩

/-- A recognition from `demoA` to `demoB`. -/
def demoRec : Recognition := ⟨1, 1, 2, 30, some "thanks", dt1⟩

/-- An endorsement by student 1 on `demoRec`. -/
def demoEnd : Endorsement := ⟨1, 1, 1, dt2⟩

/-- A time in the month before `dt1`. -/
def dt0 : DateTime := ⟨2024, 12, 31, 23, 59, 0, 0⟩

/-- Student with pre-reset balance 30 (carry-forward example). -/
def demoD : Student := ⟨4, "D", 30, 0, 0, none⟩

/-- Student with pre-reset balance 80, last reset in the previous
month (carry-forward cap example). -/
def demoE : Student := ⟨5, "E", 80, 0, 12, some dt0⟩

/-- A store for the reset carry-forward examples. -/
def demoStore3 : Store := ⟨[demoD, demoE], [], [], [], [], 1, 1, 1, 1⟩

/-- A store holding one recognition and one endorsement. -/
def demoStore2 : Store :=
  ⟨[demoA, demoB], [demoRec], [demoEnd], [], [], 2, 2, 1, 1⟩

theorem find?_map_pred {α : Type} (l : List α) (g : α → α) (p : α → Bool)
    (hp : ∀ x, p (g x) = p x) :
    (l.map g).find? p = (l.find? p).map g := by
  induction l with
  | nil => simp
  | cons x t ih =>
    rw [List.map_cons, List.find?_cons, List.find?_cons, hp x]
    cases hpx : p x with
    | true => simp
    | false => simpa using ih

theorem updStudents_find?_self (l : List Student) (i : Nat)
    (f : Student → Student) (hf : ∀ x, (f x).id = x.id) :
    (updStudents l i f).find? (fun s => s.id == i) =
      (l.find? (fun s => s.id == i)).map f := by
  rw [updStudents, find?_map_pred]
  · cases hfind : l.find? (fun s => s.id == i) with
    | none => simp
    | some s =>
      have hs := List.find?_some hfind
      simp only [beq_iff_eq] at hs
      simp [Option.map_some, hs]
  · intro x
    by_cases hx : x.id = i
    · simp [hx, hf x]
    · simp [hx]

theorem updStudents_find?_ne (l : List Student) (i j : Nat)
    (f : Student → Student) (hf : ∀ x, (f x).id = x.id) (hij : i ≠ j) :
    (updStudents l i f).find? (fun s => s.id == j) =
      l.find? (fun s => s.id == j) := by
  rw [updStudents, find?_map_pred]
  · cases hfind : l.find? (fun s => s.id == j) with
    | none => simp
    | some s =>
      have hs := List.find?_some hfind
      simp only [beq_iff_eq] at hs
      have : ¬ s.id = i := by omega
      simp [Option.map_some, this]
  · intro x
    by_cases hx : x.id = i
    · have : ¬ x.id = j := by omega
      simp [hx, hf x, this, hij.symm]
    · simp [hx]

theorem updStudents_map_id (l : List Student) (i : Nat)
    (f : Student → Student) (hf : ∀ x, (f x).id = x.id) :
    (updStudents l i f).map (fun s => s.id) = l.map (fun s => s.id) := by
  rw [updStudents, List.map_map]
  apply List.map_congr_left
  intro x _
  by_cases hx : x.id = i
  · simp [hx, hf x]
  · simp [hx]

theorem mem_updStudents (l : List Student) (i : Nat)
    (f : Student → Student) (y : Student) (hy : y ∈ updStudents l i f) :
    y ∈ l ∨ ∃ x ∈ l, x.id = i ∧ y = f x := by
  simp only [updStudents, List.mem_map] at hy
  obtain ⟨x, hx, hxy⟩ := hy
  by_cases hxi : x.id = i
  · right
    refine ⟨x, hx, hxi, ?_⟩
    simp [hxi] at hxy
    exact hxy.symm
  · left
    simp [hxi] at hxy
    exact hxy ▸ hx

theorem find?_eq_of_nodup_mem (l : List Student) (i : Nat) (s x : Student)
    (hnd : (l.map (fun s => s.id)).Nodup)
    (hfind : l.find? (fun s => s.id == i) = some s)
    (hx : x ∈ l) (hxi : x.id = i) : x = s := by
  induction l with
  | nil => simp at hfind
  | cons y t ih =>
    simp only [List.map_cons, List.nodup_cons] at hnd
    rw [List.find?_cons] at hfind
    by_cases hy : y.id = i
    · have hb : (y.id == i) = true := by simp [hy]
      rw [hb] at hfind
      simp only [] at hfind
      rcases List.mem_cons.mp hx with h | h
      · rw [h]; exact (Option.some_inj.mp hfind)
      · exfalso
        exact hnd.1 (List.mem_map.mpr ⟨x, h, by omega⟩)
    · have hb : (y.id == i) = false := by simp [hy]
      rw [hb] at hfind
      simp only [] at hfind
      rcases List.mem_cons.mp hx with h | h
      · exfalso; rw [h] at hxi; exact hy hxi
      · exact ih hnd.2 hfind h

theorem find?_self_of_nodup (l : List Student) (s : Student)
    (hnd : (l.map (fun s => s.id)).Nodup) (hs : s ∈ l) :
    l.find? (fun x => x.id == s.id) = some s := by
  cases hfind : l.find? (fun x => x.id == s.id) with
  | none =>
    rw [List.find?_eq_none] at hfind
    exact absurd (by simp : (s.id == s.id) = true) (hfind s hs)
  | some x =>
    rw [find?_eq_of_nodup_mem l s.id x s hnd hfind hs rfl]

/-- Claim C1: when all five preconditions of `create_recognition` hold
(sender and receiver exist, are distinct, `credits` is at most the
sender's balance, and the sender's monthly sent plus `credits` is at
most 100), the call succeeds, decreases the sender's balance by
`credits`, increases the sender's monthly sent by `credits`, increases
the receiver's balance and lifetime received total by `credits`,
appends exactly the returned `Recognition` record, and leaves the sum
of the two balances unchanged. -/
theorem create_recognition_success_spec
    (st : Store) (sid rid : Nat) (credits : Int) (msg : Option String)
    (now : DateTime) (s r : Student)
    (hs : findStudent st sid = some s)
    (hr : findStudent st rid = some r)
    (hne : sid ≠ rid)
    (hbal : credits ≤ s.current_balance)
    (hmon : s.monthly_sent_this_month + credits ≤ 100) :
    ∃ st' : Store,
      create_recognition st sid rid credits msg now =
        .ok ({ id := st.nextRecognitionId, sender_id := sid,
               receiver_id := rid, credits := credits, message := msg,
               created_at := now }, st') ∧
      findStudent st' sid = some
        { s with current_balance := s.current_balance - credits,
                 monthly_sent_this_month :=
                   s.monthly_sent_this_month + credits } ∧
      findStudent st' rid = some
        { r with current_balance := r.current_balance + credits,
                 credits_received_total :=
                   r.credits_received_total + credits } ∧
      st'.recognitions = st.recognitions ++
        [{ id := st.nextRecognitionId, sender_id := sid,
           receiver_id := rid, credits := credits, message := msg,
           created_at := now }] ∧
      (s.current_balance - credits) + (r.current_balance + credits) =
        s.current_balance + r.current_balance := by
  have hself : (sid == rid) = false := by simp [hne]
  have hb : ¬ (credits > s.current_balance) := not_lt.mpr hbal
  have hm : ¬ (s.monthly_sent_this_month + credits > 100) := not_lt.mpr hmon
  refine ⟨{ st with
      students := updStudents
        (updStudents st.students sid (fun x =>
          { x with current_balance := x.current_balance - credits,
                   monthly_sent_this_month :=
                     x.monthly_sent_this_month + credits }))
        rid (fun x =>
          { x with current_balance := x.current_balance + credits,
                   credits_received_total :=
                     x.credits_received_total + credits }),
      recognitions := st.recognitions ++
        [{ id := st.nextRecognitionId, sender_id := sid,
           receiver_id := rid, credits := credits, message := msg,
           created_at := now }],
      nextRecognitionId := st.nextRecognitionId + 1 }, ?_, ?_, ?_, rfl,
    by ring⟩
  · simp [create_recognition, hs, hr, hself, hb, hm]
  · show List.find? _ _ = _
    rw [updStudents_find?_ne _ rid sid (fun x =>
      { x with current_balance := x.current_balance + credits,
               credits_received_total := x.credits_received_total + credits })
      (fun x => rfl) (Ne.symm hne)]
    rw [updStudents_find?_self _ sid (fun x =>
      { x with current_balance := x.current_balance - credits,
               monthly_sent_this_month := x.monthly_sent_this_month + credits })
      (fun x => rfl)]
    rw [show st.students.find? (fun x => x.id == sid) = some s from hs]
    rfl
  · show List.find? _ _ = _
    rw [updStudents_find?_self _ rid (fun x =>
      { x with current_balance := x.current_balance + credits,
               credits_received_total := x.credits_received_total + credits })
      (fun x => rfl)]
    rw [updStudents_find?_ne _ sid rid (fun x =>
      { x with current_balance := x.current_balance - credits,
               monthly_sent_this_month := x.monthly_sent_this_month + credits })
      (fun x => rfl) hne]
    rw [show st.students.find? (fun x => x.id == rid) = some r from hr]
    rfl

theorem create_recognition_success_spec_witness :
    ((30 : Int) ≤ demoA.current_balance ∧
      demoA.monthly_sent_this_month + 30 ≤ 100) ∧
    ∃ st' : Store,
      create_recognition demoStore 1 2 30 (some "thanks") dt1 =
        .ok ({ id := 1, sender_id := 1, receiver_id := 2, credits := 30,
               message := some "thanks", created_at := dt1 }, st') ∧
      findStudent st' 1 = some ⟨1, "A", 70, 0, 30, none⟩ ∧
      findStudent st' 2 = some ⟨2, "B", 80, 40, 20, none⟩ := by
  obtain ⟨st', h1, h2, h3, -, -⟩ :=
    create_recognition_success_spec demoStore 1 2 30 (some "thanks") dt1
      demoA demoB rfl rfl (by decide) (by decide) (by decide)
  exact ⟨⟨by decide, by decide⟩, st', h1, h2, h3⟩

/-- Claim C2: `create_recognition` checks its preconditions in order —
sender exists, receiver exists, sender differs from receiver, balance
sufficient, monthly limit respected — and each failure raises its own
distinct reason; the boundary case `monthly_sent_this_month + credits
= 100` succeeds while strictly more than 100 raises the monthly-limit
error.  In this embedding an error result carries no store, which
captures that all validation precedes any mutation: on failure nothing
changes. -/
theorem create_recognition_failure_spec (st : Store) (sid rid : Nat)
    (credits : Int) (msg : Option String) (now : DateTime) :
    (findStudent st sid = none →
      create_recognition st sid rid credits msg now =
        .error (.studentNotFound sid)) ∧
    (∀ s, findStudent st sid = some s → findStudent st rid = none →
      create_recognition st sid rid credits msg now =
        .error (.studentNotFound rid)) ∧
    (∀ s r, findStudent st sid = some s → findStudent st rid = some r →
      sid = rid →
      create_recognition st sid rid credits msg now =
        .error .selfTransfer) ∧
    (∀ s r, findStudent st sid = some s → findStudent st rid = some r →
      sid ≠ rid → s.current_balance < credits →
      create_recognition st sid rid credits msg now =
        .error (.insufficientBalance s.current_balance credits)) ∧
    (∀ s r, findStudent st sid = some s → findStudent st rid = some r →
      sid ≠ rid → credits ≤ s.current_balance →
      100 < s.monthly_sent_this_month + credits →
      create_recognition st sid rid credits msg now =
        .error (.monthlyLimitExceeded s.monthly_sent_this_month credits)) ∧
    (∀ s r, findStudent st sid = some s → findStudent st rid = some r →
      sid ≠ rid → credits ≤ s.current_balance →
      s.monthly_sent_this_month + credits = 100 →
      (create_recognition st sid rid credits msg now).isOk = true) := by
  refine ⟨?_, ?_, ?_, ?_, ?_, ?_⟩
  · intro h
    simp [create_recognition, h]
  · intro s h1 h2
    simp [create_recognition, h1, h2]
  · intro s r h1 h2 h3
    simp [create_recognition, h1, h2, h3]
  · intro s r h1 h2 h3 h4
    have hself : (sid == rid) = false := by simp [h3]
    simp [create_recognition, h1, h2, hself, h4]
  · intro s r h1 h2 h3 h4 h5
    have hself : (sid == rid) = false := by simp [h3]
    have hb : ¬ (credits > s.current_balance) := not_lt.mpr h4
    simp [create_recognition, h1, h2, hself, hb, h5]
  · intro s r h1 h2 h3 h4 h5
    have hself : (sid == rid) = false := by simp [h3]
    have hb : ¬ (credits > s.current_balance) := not_lt.mpr h4
    have hm : ¬ (s.monthly_sent_this_month + credits > 100) := by omega
    simp [create_recognition, h1, h2, hself, hb, hm, Except.isOk, Except.toBool]

theorem create_recognition_failure_spec_witness :
    (findStudent demoStore 99 = none ∧
      create_recognition demoStore 99 2 10 none dt1 =
        .error (.studentNotFound 99)) ∧
    (create_recognition demoStore 1 88 10 none dt1 =
      .error (.studentNotFound 88)) ∧
    (create_recognition demoStore 1 1 10 none dt1 =
      .error .selfTransfer) ∧
    (create_recognition demoStore 2 1 51 none dt1 =
      .error (.insufficientBalance 50 51)) ∧
    (create_recognition demoStore 3 1 10 none dt1 =
      .error (.monthlyLimitExceeded 95 10)) ∧
    ((create_recognition demoStore 3 1 5 none dt1).isOk = true) := by
  refine ⟨⟨rfl, ?_⟩, ?_, ?_, ?_, ?_, ?_⟩
  · exact (create_recognition_failure_spec demoStore 99 2 10 none dt1).1 rfl
  · exact (create_recognition_failure_spec demoStore 1 88 10 none
      dt1).2.1 demoA rfl rfl
  · exact (create_recognition_failure_spec demoStore 1 1 10 none
      dt1).2.2.1 demoA demoA rfl rfl rfl
  · exact (create_recognition_failure_spec demoStore 2 1 51 none
      dt1).2.2.2.1 demoB demoA rfl rfl (by decide) (by decide)
  · exact (create_recognition_failure_spec demoStore 3 1 10 none
      dt1).2.2.2.2.1 demoC demoA rfl rfl (by decide) (by decide) (by decide)
  · exact (create_recognition_failure_spec demoStore 3 1 5 none
      dt1).2.2.2.2.2 demoC demoA rfl rfl (by decide) (by decide) (by decide)

/-- Claim C10: the core `create_recognition` never validates that
`credits` is positive: with distinct existing sender and receiver,
`credits = -5` passes the balance and monthly-limit checks and the
call succeeds, increasing the sender's balance (100 to 105),
decreasing the sender's monthly sent counter (0 to -5), and decreasing
the receiver's balance (50 to 45) and lifetime received total (10 to
5).  Positivity is enforced only at the HTTP boundary. -/
theorem create_recognition_no_positivity_check :
    ∃ rec st',
      create_recognition demoStore 1 2 (-5) none dt1 = .ok (rec, st') ∧
      rec.credits = -5 ∧
      findStudent demoStore 1 = some demoA ∧
      findStudent demoStore 2 = some demoB ∧
      findStudent st' 1 =
        some { demoA with current_balance := 105,
                          monthly_sent_this_month := -5 } ∧
      findStudent st' 2 =
        some { demoB with current_balance := 45,
                          credits_received_total := 5 } ∧
      demoA.current_balance < 105 ∧ (-5 : Int) < demoA.monthly_sent_this_month ∧
      (45 : Int) < demoB.current_balance ∧ (5 : Int) < demoB.credits_received_total := by
  refine ⟨_, _, rfl, rfl, rfl, rfl, ?_, ?_, by decide, by decide, by decide, by decide⟩
  · rfl
  · rfl

/-- Claim C4: `redeem` checks student existence, then positivity of
the amount, then sufficiency of the balance, each failure with its own
reason and no state change; on success it deducts exactly the redeemed
credits from the balance, appends one `Redemption` record whose voucher
value is five times the credits redeemed, returns it, and leaves the
student's lifetime received total and monthly sent counter unchanged
(only `current_balance` is updated). -/
theorem redeem_spec (st : Store) (sid : Nat) (credits : Int)
    (now : DateTime) :
    (findStudent st sid = none →
      redeem st sid credits now = .error (.studentNotFound sid)) ∧
    (∀ s, findStudent st sid = some s → credits ≤ 0 →
      redeem st sid credits now = .error .invalidAmount) ∧
    (∀ s, findStudent st sid = some s → 0 < credits →
      s.current_balance < credits →
      redeem st sid credits now =
        .error (.insufficientBalance s.current_balance credits)) ∧
    (∀ s, findStudent st sid = some s → 0 < credits →
      credits ≤ s.current_balance →
      ∃ st' : Store,
        redeem st sid credits now =
          .ok ({ id := st.nextRedemptionId, student_id := sid,
                 credits_redeemed := credits,
                 voucher_value_inr := credits * 5,
                 created_at := now }, st') ∧
        findStudent st' sid = some
          { s with current_balance := s.current_balance - credits } ∧
        st'.redemptions = st.redemptions ++
          [{ id := st.nextRedemptionId, student_id := sid,
             credits_redeemed := credits, voucher_value_inr := credits * 5,
             created_at := now }] ∧
        st'.recognitions = st.recognitions ∧
        st'.resetLogs = st.resetLogs) := by
  refine ⟨?_, ?_, ?_, ?_⟩
  · intro h
    simp [redeem, h]
  · intro s h1 h2
    simp [redeem, h1, h2]
  · intro s h1 h2 h3
    have hz : ¬ (credits ≤ 0) := not_le.mpr h2
    simp [redeem, h1, hz, h3]
  · intro s h1 h2 h3
    have hz : ¬ (credits ≤ 0) := not_le.mpr h2
    have hb : ¬ (s.current_balance < credits) := not_lt.mpr h3
    refine ⟨{ st with
        students := updStudents st.students sid (fun x =>
          { x with current_balance := x.current_balance - credits }),
        redemptions := st.redemptions ++
          [{ id := st.nextRedemptionId, student_id := sid,
             credits_redeemed := credits,
             voucher_value_inr := credits * 5, created_at := now }],
        nextRedemptionId := st.nextRedemptionId + 1 }, ?_, ?_, rfl, rfl, rfl⟩
    · simp [redeem, h1, hz, hb]
    · show List.find? _ _ = _
      rw [updStudents_find?_self _ sid (fun x =>
        { x with current_balance := x.current_balance - credits })
        (fun x => rfl)]
      rw [show st.students.find? (fun x => x.id == sid) = some s from h1]
      rfl

theorem redeem_spec_witness :
    ((0 : Int) < 10 ∧ (10 : Int) ≤ demoA.current_balance ∧
      demoA.current_balance = 100) ∧
    (∃ st' : Store,
      redeem demoStore 1 10 dt1 =
        .ok ({ id := 1, student_id := 1, credits_redeemed := 10,
               voucher_value_inr := 50, created_at := dt1 }, st') ∧
      findStudent st' 1 = some ⟨1, "A", 90, 0, 0, none⟩) ∧
    (redeem demoStore 1 0 dt1 = .error .invalidAmount) ∧
    (redeem demoStore 1 101 dt1 = .error (.insufficientBalance 100 101)) ∧
    (redeem demoStore 77 10 dt1 = .error (.studentNotFound 77)) := by
  obtain ⟨st', h1, h2, -, -, -⟩ :=
    (redeem_spec demoStore 1 10 dt1).2.2.2 demoA rfl (by decide) (by decide)
  refine ⟨⟨by decide, by decide, rfl⟩, ⟨st', h1, h2⟩, ?_, ?_, ?_⟩
  · exact (redeem_spec demoStore 1 0 dt1).2.1 demoA rfl (by decide)
  · exact (redeem_spec demoStore 1 101 dt1).2.2.1 demoA rfl (by decide)
      (by decide)
  · exact (redeem_spec demoStore 77 10 dt1).1 rfl

/-- Claim C3: after the existence checks (recognition first, endorser
second, each with its own not-found error), `endorse` raises the
duplicate-endorsement error exactly when an endorsement by that
endorser on that recognition already exists; otherwise it appends
exactly one endorsement for the pair, returns it, and leaves every
student row untouched.  Consequently the at-most-one-per-pair
invariant is preserved by every successful call, and a different
endorser on the same recognition still succeeds. -/
theorem endorse_spec (st : Store) (rid eid : Nat) (now : DateTime) :
    (st.recognitions.find? (fun r => r.id == rid) = none →
      endorse st rid eid now = .error (.recognitionNotFound rid)) ∧
    (∀ rec, st.recognitions.find? (fun r => r.id == rid) = some rec →
      findStudent st eid = none →
      endorse st rid eid now = .error (.endorserNotFound eid)) ∧
    (∀ rec e0, st.recognitions.find? (fun r => r.id == rid) = some rec →
      findStudent st eid = some e0 →
      ((endorse st rid eid now = .error .duplicateEndorsement) ↔
        ∃ e ∈ st.endorsements,
          e.recognition_id = rid ∧ e.endorser_id = eid)) ∧
    (∀ rec e0, st.recognitions.find? (fun r => r.id == rid) = some rec →
      findStudent st eid = some e0 →
      (¬ ∃ e ∈ st.endorsements,
          e.recognition_id = rid ∧ e.endorser_id = eid) →
      ∃ st' : Store,
        endorse st rid eid now =
          .ok ({ id := st.nextEndorsementId, recognition_id := rid,
                 endorser_id := eid, created_at := now }, st') ∧
        st'.endorsements = st.endorsements ++
          [{ id := st.nextEndorsementId, recognition_id := rid,
             endorser_id := eid, created_at := now }] ∧
        st'.students = st.students) ∧
    (endorsementPairsUnique st.endorsements →
      ∀ e st', endorse st rid eid now = .ok (e, st') →
        endorsementPairsUnique st'.endorsements) := by
  refine ⟨?_, ?_, ?_, ?_, ?_⟩
  · intro h
    simp [endorse, h]
  · intro rec h1 h2
    simp [endorse, h1, h2]
  · intro rec e0 h1 h2
    cases hdup : st.endorsements.find? (fun e =>
        e.recognition_id == rid && e.endorser_id == eid) with
    | none =>
      have hnone := hdup
      rw [List.find?_eq_none] at hnone
      simp only [endorse, h1, h2, hdup]
      constructor
      · intro h
        simp at h
      · rintro ⟨e, he, hrec, hend⟩
        exact absurd (by simp [hrec, hend]) (hnone e he)
    | some d =>
      have hd := List.find?_some hdup
      have hdm := List.mem_of_find?_eq_some hdup
      simp only [Bool.and_eq_true, beq_iff_eq] at hd
      simp only [endorse, h1, h2, hdup]
      exact ⟨fun _ => ⟨d, hdm, hd.1, hd.2⟩, fun _ => by simp⟩
  · intro rec e0 h1 h2 h3
    cases hdup : st.endorsements.find? (fun e =>
        e.recognition_id == rid && e.endorser_id == eid) with
    | none =>
      refine ⟨{ st with
          endorsements := st.endorsements ++
            [{ id := st.nextEndorsementId, recognition_id := rid,
               endorser_id := eid, created_at := now }],
          nextEndorsementId := st.nextEndorsementId + 1 }, ?_, rfl, rfl⟩
      simp [endorse, h1, h2, hdup]
    | some d =>
      have hd := List.find?_some hdup
      have hdm := List.mem_of_find?_eq_some hdup
      simp only [Bool.and_eq_true, beq_iff_eq] at hd
      exact absurd ⟨d, hdm, hd.1, hd.2⟩ h3
  · intro hpu e st' hok
    cases h1 : st.recognitions.find? (fun r => r.id == rid) with
    | none => simp [endorse, h1] at hok
    | some rec =>
      cases h2 : findStudent st eid with
      | none => simp [endorse, h1, h2] at hok
      | some e0 =>
        cases hdup : st.endorsements.find? (fun e =>
            e.recognition_id == rid && e.endorser_id == eid) with
        | some d => simp [endorse, h1, h2, hdup] at hok
        | none =>
          simp only [endorse, h1, h2, hdup, Except.ok.injEq,
            Prod.mk.injEq] at hok
          obtain ⟨-, hst⟩ := hok
          rw [← hst]
          rw [List.find?_eq_none] at hdup
          unfold endorsementPairsUnique
          rw [List.pairwise_append]
          refine ⟨hpu, List.pairwise_singleton _ _, ?_⟩
          intro a ha b hb
          rw [List.mem_singleton] at hb
          subst hb
          intro hcon
          exact hdup a ha (by simp [hcon.1, hcon.2])

theorem endorse_spec_witness :
    (endorse demoStore2 1 1 dt2 = .error .duplicateEndorsement) ∧
    (∃ st' : Store,
      endorse demoStore2 1 2 dt2 =
        .ok ({ id := 2, recognition_id := 1, endorser_id := 2,
               created_at := dt2 }, st') ∧
      st'.endorsements = demoStore2.endorsements ++
        [{ id := 2, recognition_id := 1, endorser_id := 2,
           created_at := dt2 }] ∧
      st'.students = demoStore2.students) ∧
    (endorse demoStore2 9 1 dt2 = .error (.recognitionNotFound 9)) ∧
    (endorse demoStore2 1 9 dt2 = .error (.endorserNotFound 9)) := by
  refine ⟨?_, ?_, ?_, ?_⟩
  · exact ((endorse_spec demoStore2 1 1 dt2).2.2.1 demoRec demoA rfl
      rfl).mpr ⟨demoEnd, by decide, rfl, rfl⟩
  · exact (endorse_spec demoStore2 1 2 dt2).2.2.2.1 demoRec demoB rfl rfl
      (by decide)
  · exact (endorse_spec demoStore2 9 1 dt2).1 rfl
  · exact (endorse_spec demoStore2 1 9 dt2).2.1 demoRec rfl rfl

theorem monthFloor_lt_iff (a b : DateTime) :
    DateTime.lt a.monthFloor b.monthFloor = true ↔
      (a.year < b.year ∨ (a.year = b.year ∧ a.month < b.month)) := by
  simp only [DateTime.lt, DateTime.monthFloor, Bool.or_eq_true,
    Bool.and_eq_true, decide_eq_true_eq, beq_iff_eq]
  omega

theorem dtLt_irrefl (a : DateTime) : DateTime.lt a a = false := by
  simp [DateTime.lt]

theorem monthFloor_congr (a b : DateTime) (hy : a.year = b.year)
    (hm : a.month = b.month) : a.monthFloor = b.monthFloor := by
  simp [DateTime.monthFloor, hy, hm]

theorem needsReset_congr (s : Student) (n1 n2 : DateTime)
    (h : n1.monthFloor = n2.monthFloor) :
    needsReset s n1 = needsReset s n2 := by
  unfold needsReset
  cases s.last_credit_reset with
  | none => rfl
  | some d => rw [h]

/-- Claim C5: `ensure_monthly_reset` decides "needs reset" exactly
when `last_credit_reset` is unset or its (year, month) pair is
strictly earlier than that of `now` — day of month and elapsed time
are irrelevant.  When a reset is needed it sets the balance to
`100 + min 50 previous_balance`, zeroes the monthly sent counter, sets
`last_credit_reset` to `now`, and appends one `MonthlyResetLog` with
that month, year and carried-forward amount; a pre-reset balance of 30
yields 130 and a pre-reset balance of 80 yields 150. -/
theorem ensure_monthly_reset_spec (st : Store) (sid : Nat)
    (now : DateTime) (s : Student) (hfind : findStudent st sid = some s) :
    ((ensure_monthly_reset st sid now).1 = true ↔
      (s.last_credit_reset = none ∨
        ∃ d, s.last_credit_reset = some d ∧
          (d.year < now.year ∨
            (d.year = now.year ∧ d.month < now.month)))) ∧
    ((ensure_monthly_reset st sid now).1 = false →
      (ensure_monthly_reset st sid now).2 = st) ∧
    ((ensure_monthly_reset st sid now).1 = true →
      findStudent (ensure_monthly_reset st sid now).2 sid = some
        { s with current_balance := 100 + min 50 s.current_balance,
                 monthly_sent_this_month := 0,
                 last_credit_reset := some now } ∧
      (ensure_monthly_reset st sid now).2.resetLogs = st.resetLogs ++
        [{ id := st.nextResetLogId, student_id := sid,
           month := now.month, year := now.year,
           carried_forward := min 50 s.current_balance,
           created_at := now }] ∧
      (s.current_balance = 30 →
        (findStudent (ensure_monthly_reset st sid now).2 sid).map
          (fun x => x.current_balance) = some 130) ∧
      (s.current_balance = 80 →
        (findStudent (ensure_monthly_reset st sid now).2 sid).map
          (fun x => x.current_balance) = some 150)) := by
  cases hc : needsReset s now with
  | false =>
    have hres : ensure_monthly_reset st sid now = (false, st) := by
      simp [ensure_monthly_reset, hfind, hc]
    rw [hres]
    refine ⟨?_, fun _ => rfl, by simp⟩
    simp only [show ((false, st) : Bool × Store).1 = false from rfl,
      Bool.false_eq_true, false_iff]
    unfold needsReset at hc
    cases hlast : s.last_credit_reset with
    | none => rw [hlast] at hc; simp at hc
    | some d =>
      rw [hlast] at hc
      rw [Bool.eq_false_iff, Ne, monthFloor_lt_iff] at hc
      rintro (h | ⟨d', hd', hcond⟩)
      · exact Option.noConfusion h
      · cases Option.some_inj.mp hd'
        exact hc hcond
  | true =>
    have hfound : findStudent (ensure_monthly_reset st sid now).2 sid =
        some { s with current_balance := 100 + min 50 s.current_balance,
                      monthly_sent_this_month := 0,
                      last_credit_reset := some now } := by
      simp only [ensure_monthly_reset, hfind, hc, if_true]
      show List.find? _ _ = _
      rw [updStudents_find?_self _ sid (fun x =>
        { x with current_balance := 100 + min 50 x.current_balance,
                 monthly_sent_this_month := 0,
                 last_credit_reset := some now }) (fun x => rfl)]
      rw [show st.students.find? (fun x => x.id == sid) = some s
        from hfind]
      rfl
    have hfst : (ensure_monthly_reset st sid now).1 = true := by
      simp [ensure_monthly_reset, hfind, hc]
    refine ⟨?_, ?_, fun _ => ⟨hfound, ?_, ?_, ?_⟩⟩
    · simp only [hfst, true_iff]
      unfold needsReset at hc
      cases hlast : s.last_credit_reset with
      | none => exact Or.inl rfl
      | some d =>
        rw [hlast] at hc
        rw [monthFloor_lt_iff] at hc
        exact Or.inr ⟨d, rfl, hc⟩
    · intro h; rw [hfst] at h; exact Bool.noConfusion h
    · simp [ensure_monthly_reset, hfind, hc]
    · intro h30
      rw [hfound]
      simp [h30]
    · intro h80
      rw [hfound]
      simp [h80]

theorem ensure_monthly_reset_spec_witness :
    (findStudent demoStore3 4 = some demoD ∧
      demoD.last_credit_reset = none ∧ demoD.current_balance = 30 ∧
      demoE.current_balance = 80) ∧
    ((ensure_monthly_reset demoStore3 4 dt1).1 = true ∧
      (findStudent (ensure_monthly_reset demoStore3 4 dt1).2 4).map
        (fun x => x.current_balance) = some 130) ∧
    ((ensure_monthly_reset demoStore3 5 dt1).1 = true ∧
      (findStudent (ensure_monthly_reset demoStore3 5 dt1).2 5).map
        (fun x => x.current_balance) = some 150) := by
  have hD := ensure_monthly_reset_spec demoStore3 4 dt1 demoD rfl
  have hE := ensure_monthly_reset_spec demoStore3 5 dt1 demoE rfl
  have hDf : (ensure_monthly_reset demoStore3 4 dt1).1 = true :=
    hD.1.mpr (Or.inl rfl)
  have hEf : (ensure_monthly_reset demoStore3 5 dt1).1 = true :=
    hE.1.mpr (Or.inr ⟨dt0, rfl, by decide⟩)
  refine ⟨⟨rfl, rfl, rfl, rfl⟩, ⟨hDf, ?_⟩, ⟨hEf, ?_⟩⟩
  · exact (hD.2.2 hDf).2.2.1 rfl
  · exact (hE.2.2 hEf).2.2.2 rfl

/-- Claim C6: `ensure_monthly_reset` is idempotent per student per
calendar month: a second call at any time in the same calendar month
as the first returns `false` ("not reset") and leaves the store —
student fields and reset logs — completely unchanged. -/
theorem ensure_monthly_reset_idempotent (st : Store) (sid : Nat)
    (now1 now2 : DateTime) (hy : now1.year = now2.year)
    (hm : now1.month = now2.month) :
    ensure_monthly_reset (ensure_monthly_reset st sid now1).2 sid now2 =
      (false, (ensure_monthly_reset st sid now1).2) := by
  have hmf : now1.monthFloor = now2.monthFloor :=
    monthFloor_congr _ _ hy hm
  cases hfind : findStudent st sid with
  | none =>
    have h1 : ensure_monthly_reset st sid now1 = (false, st) := by
      simp [ensure_monthly_reset, hfind]
    rw [h1]
    simp [ensure_monthly_reset, hfind]
  | some s =>
    cases hc : needsReset s now1 with
    | false =>
      have h1 : ensure_monthly_reset st sid now1 = (false, st) := by
        simp [ensure_monthly_reset, hfind, hc]
      rw [h1]
      have hc2 : needsReset s now2 = false := by
        rw [← needsReset_congr s now1 now2 hmf]; exact hc
      simp [ensure_monthly_reset, hfind, hc2]
    | true =>
      have hfound : findStudent (ensure_monthly_reset st sid now1).2 sid =
          some { s with current_balance := 100 + min 50 s.current_balance,
                        monthly_sent_this_month := 0,
                        last_credit_reset := some now1 } := by
        simp only [ensure_monthly_reset, hfind, hc, if_true]
        show List.find? _ _ = _
        rw [updStudents_find?_self _ sid (fun x =>
          { x with current_balance := 100 + min 50 x.current_balance,
                   monthly_sent_this_month := 0,
                   last_credit_reset := some now1 }) (fun x => rfl)]
        rw [show st.students.find? (fun x => x.id == sid) = some s
          from hfind]
        rfl
      have hc2 : needsReset
          { s with current_balance := 100 + min 50 s.current_balance,
                   monthly_sent_this_month := 0,
                   last_credit_reset := some now1 } now2 = false := by
        unfold needsReset
        simp only []
        rw [← hmf]
        exact dtLt_irrefl _
      generalize hg : (ensure_monthly_reset st sid now1).2 = st1 at hfound
      simp [ensure_monthly_reset, hfound, hc2]

theorem ensure_monthly_reset_idempotent_witness :
    (dt1.year = dt2.year ∧ dt1.month = dt2.month) ∧
    ensure_monthly_reset (ensure_monthly_reset demoStore 1 dt1).2 1 dt2 =
      (false, (ensure_monthly_reset demoStore 1 dt1).2) :=
  ⟨⟨rfl, rfl⟩, ensure_monthly_reset_idempotent demoStore 1 dt1 dt2 rfl rfl⟩

theorem ensure_fst (st : Store) (sid : Nat) (now : DateTime) :
    (ensure_monthly_reset st sid now).1 =
      ((findStudent st sid).map (fun s => needsReset s now)).getD false := by
  cases hf : findStudent st sid with
  | none => simp [ensure_monthly_reset, hf]
  | some s =>
    cases hc : needsReset s now with
    | false => simp [ensure_monthly_reset, hf, hc]
    | true => simp [ensure_monthly_reset, hf, hc]

theorem ensure_find?_ne (st : Store) (sid j : Nat) (now : DateTime)
    (hj : j ≠ sid) :
    findStudent (ensure_monthly_reset st sid now).2 j =
      findStudent st j := by
  cases hf : findStudent st sid with
  | none => simp [ensure_monthly_reset, hf]
  | some s =>
    cases hc : needsReset s now with
    | false => simp [ensure_monthly_reset, hf, hc]
    | true =>
      simp only [ensure_monthly_reset, hf, hc, if_true]
      show List.find? _ _ = _
      rw [updStudents_find?_ne _ sid j (fun x =>
        { x with current_balance := 100 + min 50 x.current_balance,
                 monthly_sent_this_month := 0,
                 last_credit_reset := some now }) (fun x => rfl) hj.symm]
      rfl

theorem ensure_map_id (st : Store) (sid : Nat) (now : DateTime) :
    (ensure_monthly_reset st sid now).2.students.map (fun s => s.id) =
      st.students.map (fun s => s.id) := by
  cases hf : findStudent st sid with
  | none => simp [ensure_monthly_reset, hf]
  | some s =>
    cases hc : needsReset s now with
    | false => simp [ensure_monthly_reset, hf, hc]
    | true =>
      simp only [ensure_monthly_reset, hf, hc, if_true]
      exact updStudents_map_id _ sid _ (fun x => rfl)

theorem ensure_find?_self_fresh (st : Store) (sid : Nat) (now : DateTime)
    (s' : Student)
    (hf' : findStudent (ensure_monthly_reset st sid now).2 sid = some s') :
    needsReset s' now = false := by
  cases hf : findStudent st sid with
  | none =>
    have : (ensure_monthly_reset st sid now).2 = st := by
      simp [ensure_monthly_reset, hf]
    rw [this, hf] at hf'
    exact Option.noConfusion hf'
  | some s =>
    cases hc : needsReset s now with
    | false =>
      have : (ensure_monthly_reset st sid now).2 = st := by
        simp [ensure_monthly_reset, hf, hc]
      rw [this, hf] at hf'
      cases Option.some_inj.mp hf'
      exact hc
    | true =>
      have hfound : findStudent (ensure_monthly_reset st sid now).2 sid =
          some { s with current_balance := 100 + min 50 s.current_balance,
                        monthly_sent_this_month := 0,
                        last_credit_reset := some now } := by
        simp only [ensure_monthly_reset, hf, hc, if_true]
        show List.find? _ _ = _
        rw [updStudents_find?_self _ sid (fun x =>
          { x with current_balance := 100 + min 50 x.current_balance,
                   monthly_sent_this_month := 0,
                   last_credit_reset := some now }) (fun x => rfl)]
        rw [show st.students.find? (fun x => x.id == sid) = some s
          from hf]
        rfl
      rw [hfound] at hf'
      cases Option.some_inj.mp hf'
      unfold needsReset
      simp only []
      exact dtLt_irrefl _


theorem runResetList_shift (now : DateTime) (ids : List Nat) (st : Store)
    (n : Nat) :
    ids.foldl (fun acc sid =>
      let r := ensure_monthly_reset acc.2 sid now
      (acc.1 + (if r.1 then 1 else 0), r.2)) (n, st) =
    (n + (runResetList st ids now).1, (runResetList st ids now).2) := by
  induction ids generalizing st n with
  | nil => simp [runResetList]
  | cons a t ih =>
    simp only [runResetList, List.foldl_cons]
    rw [ih, ih]
    simp only [Prod.mk.injEq]
    constructor
    · omega
    · trivial

theorem runResetList_cons (now : DateTime) (a : Nat) (t : List Nat)
    (st : Store) :
    runResetList st (a :: t) now =
      ((if (ensure_monthly_reset st a now).1 then 1 else 0) +
        (runResetList (ensure_monthly_reset st a now).2 t now).1,
       (runResetList (ensure_monthly_reset st a now).2 t now).2) := by
  simp only [runResetList, List.foldl_cons]
  rw [runResetList_shift]
  simp [runResetList]

theorem runResetList_find?_ne (now : DateTime) (ids : List Nat)
    (st : Store) (j : Nat) (hj : j ∉ ids) :
    findStudent (runResetList st ids now).2 j = findStudent st j := by
  induction ids generalizing st with
  | nil => simp [runResetList]
  | cons a t ih =>
    rw [runResetList_cons]
    simp only [List.mem_cons, not_or] at hj
    rw [ih _ hj.2, ensure_find?_ne st a j now hj.1]

theorem runResetList_map_id (now : DateTime) (ids : List Nat)
    (st : Store) :
    (runResetList st ids now).2.students.map (fun s => s.id) =
      st.students.map (fun s => s.id) := by
  induction ids generalizing st with
  | nil => simp [runResetList]
  | cons a t ih =>
    rw [runResetList_cons]
    simp only []
    rw [ih, ensure_map_id]

theorem runResetList_fresh (now : DateTime) (ids : List Nat) (st : Store)
    (hnd : ids.Nodup) (sid : Nat) (hsid : sid ∈ ids) (s' : Student)
    (hf' : findStudent (runResetList st ids now).2 sid = some s') :
    needsReset s' now = false := by
  induction ids generalizing st with
  | nil => simp at hsid
  | cons a t ih =>
    rw [runResetList_cons] at hf'
    simp only [] at hf'
    rw [List.nodup_cons] at hnd
    rcases List.mem_cons.mp hsid with h | h
    · subst h
      rw [runResetList_find?_ne now t _ sid hnd.1] at hf'
      exact ensure_find?_self_fresh st sid now s' hf'
    · exact ih _ hnd.2 h hf'

theorem runResetList_noop (now2 : DateTime) (ids : List Nat) (st : Store)
    (hfresh : ∀ sid ∈ ids, ∀ s', findStudent st sid = some s' →
      needsReset s' now2 = false) :
    runResetList st ids now2 = (0, st) := by
  induction ids with
  | nil => simp [runResetList]
  | cons a t ih =>
    have hstep : ensure_monthly_reset st a now2 = (false, st) := by
      cases hf : findStudent st a with
      | none => simp [ensure_monthly_reset, hf]
      | some s =>
        have := hfresh a (List.mem_cons_self a t) s hf
        simp [ensure_monthly_reset, hf, this]
    rw [runResetList_cons, hstep]
    simp [ih (fun sid hs s' hf' =>
      hfresh sid (List.mem_cons_of_mem a hs) s' hf')]

theorem runResetList_count (now : DateTime) (ids : List Nat) (st : Store)
    (hnd : ids.Nodup) :
    (runResetList st ids now).1 =
      (ids.filter (fun sid =>
        ((findStudent st sid).map (fun s => needsReset s now)).getD
          false)).length := by
  induction ids generalizing st with
  | nil => simp [runResetList]
  | cons a t ih =>
    rw [List.nodup_cons] at hnd
    rw [runResetList_cons]
    simp only []
    rw [ih _ hnd.2]
    have hcongr : t.filter (fun sid =>
        ((findStudent (ensure_monthly_reset st a now).2 sid).map
          (fun s => needsReset s now)).getD false) =
      t.filter (fun sid =>
        ((findStudent st sid).map (fun s => needsReset s now)).getD
          false) := by
      apply List.filter_congr
      intro sid hs
      rw [ensure_find?_ne st a sid now (fun h => hnd.1 (h ▸ hs))]
    rw [hcongr, ensure_fst, List.filter_cons]
    cases hP : ((findStudent st a).map (fun s => needsReset s now)).getD
        false with
    | true => simp [hP]; omega
    | false => simp [hP]



/-- Claim C7: `run_monthly_reset_for_all_students` visits every
student and returns the number of students actually reset (those
needing a reset at `now`).  Each per-student reset commits on its own:
running the loop over `ids1 ++ ids2` equals running it over `ids1`
and continuing from that committed store, so stopping after a failure
on some student leaves the earlier students' resets committed.  A
second invocation in the same calendar month resets 0 students and
changes nothing. -/
theorem run_monthly_reset_spec (st : Store) (now now2 : DateTime)
    (hids : (st.students.map (fun s => s.id)).Nodup)
    (hy : now.year = now2.year) (hm : now.month = now2.month) :
    (run_monthly_reset_for_all_students st now).1 =
      (st.students.filter (fun s => needsReset s now)).length ∧
    (∀ ids1 ids2 : List Nat,
      runResetList st (ids1 ++ ids2) now =
        ((runResetList st ids1 now).1 +
          (runResetList (runResetList st ids1 now).2 ids2 now).1,
         (runResetList (runResetList st ids1 now).2 ids2 now).2)) ∧
    (run_monthly_reset_for_all_students
        (run_monthly_reset_for_all_students st now).2 now2 =
      (0, (run_monthly_reset_for_all_students st now).2)) := by
  refine ⟨?_, ?_, ?_⟩
  · unfold run_monthly_reset_for_all_students
    rw [runResetList_count now _ st hids]
    rw [List.filter_map]
    rw [List.length_map]
    apply congrArg
    apply List.filter_congr
    intro s hs
    have hself : findStudent st s.id = some s := by
      unfold findStudent
      exact find?_self_of_nodup st.students s hids hs
    simp [Function.comp, hself]
  · intro ids1 ids2
    unfold runResetList
    rw [List.foldl_append]
    rw [show (List.foldl (fun acc sid =>
        let r := ensure_monthly_reset acc.2 sid now
        (acc.1 + (if r.1 then 1 else 0), r.2)) (0, st) ids1) =
      runResetList st ids1 now from rfl]
    rw [runResetList_shift]
    rfl
  · have hmf : now.monthFloor = now2.monthFloor :=
      monthFloor_congr _ _ hy hm
    unfold run_monthly_reset_for_all_students
    set ids := st.students.map (fun s => s.id) with hids_def
    have hids2 : (runResetList st ids now).2.students.map (fun s => s.id) =
        ids := runResetList_map_id now ids st
    rw [hids2]
    apply runResetList_noop
    intro sid hs s' hf'
    rw [← needsReset_congr s' now now2 hmf]
    exact runResetList_fresh now ids st hids sid hs s' hf'

theorem run_monthly_reset_spec_witness :
    ((demoStore3.students.map (fun s => s.id)).Nodup ∧
      dt1.year = dt2.year ∧ dt1.month = dt2.month) ∧
    (run_monthly_reset_for_all_students demoStore3 dt1).1 =
      (demoStore3.students.filter (fun s => needsReset s dt1)).length ∧
    (run_monthly_reset_for_all_students
        (run_monthly_reset_for_all_students demoStore3 dt1).2 dt2 =
      (0, (run_monthly_reset_for_all_students demoStore3 dt1).2)) := by
  have h := run_monthly_reset_spec demoStore3 dt1 dt2 (by decide) rfl rfl
  exact ⟨⟨by decide, rfl, rfl⟩, h.1, h.2.2⟩


theorem nonneg_updStudents (l : List Student) (sid : Nat)
    (f : Student → Student)
    (h : ∀ y ∈ l, 0 ≤ y.current_balance)
    (hup : ∀ y ∈ l, y.id = sid → 0 ≤ (f y).current_balance) :
    ∀ x ∈ updStudents l sid f, 0 ≤ x.current_balance := by
  intro x hx
  rcases mem_updStudents l sid f x hx with h1 | ⟨y, hy, hyi, rfl⟩
  · exact h x h1
  · exact hup y hy hyi

theorem create_ok_nonneg (st : Store) (a b : Nat) (c : Int)
    (m : Option String) (now : DateTime) (rec : Recognition) (st' : Store)
    (hok : create_recognition st a b c m now = .ok (rec, st'))
    (hnd : (st.students.map (fun s => s.id)).Nodup) (hpos : 0 < c)
    (h : ∀ s ∈ st.students, 0 ≤ s.current_balance) :
    (∀ s ∈ st'.students, 0 ≤ s.current_balance) ∧
    st'.students.map (fun s => s.id) =
      st.students.map (fun s => s.id) := by
  cases hfa : findStudent st a with
  | none => simp [create_recognition, hfa] at hok
  | some sender =>
    cases hfb : findStudent st b with
    | none => simp [create_recognition, hfa, hfb] at hok
    | some receiver =>
      by_cases hself : a = b
      · simp [create_recognition, hfa, hfb, hself] at hok
      · have hsb : (a == b) = false := by simp [hself]
        by_cases hbal : c > sender.current_balance
        · simp [create_recognition, hfa, hfb, hsb, hbal] at hok
        · by_cases hmon : sender.monthly_sent_this_month + c > 100
          · simp [create_recognition, hfa, hfb, hsb, hbal, hmon] at hok
          · simp only [create_recognition, hfa, hfb, hsb, hbal, hmon,
              Bool.false_eq_true, if_false, Except.ok.injEq,
              Prod.mk.injEq] at hok
            obtain ⟨-, hst⟩ := hok
            rw [← hst]
            have hinner : ∀ x ∈ updStudents st.students a (fun s =>
                { s with current_balance := s.current_balance - c,
                         monthly_sent_this_month :=
                           s.monthly_sent_this_month + c }),
                0 ≤ x.current_balance := by
              apply nonneg_updStudents st.students a _ h
              intro y hy hyi
              have hys : y = sender :=
                find?_eq_of_nodup_mem st.students a sender y hnd hfa hy hyi
              rw [hys]
              simp only []
              omega
            refine ⟨?_, ?_⟩
            · apply nonneg_updStudents _ b _ hinner
              intro y hy _
              have := hinner y hy
              simp only []
              omega
            · show (updStudents (updStudents _ _ _) _ _).map _ = _
              rw [updStudents_map_id _ b (fun s =>
                { s with current_balance := s.current_balance + c,
                         credits_received_total :=
                           s.credits_received_total + c }) (fun x => rfl)]
              rw [updStudents_map_id _ a (fun s =>
                { s with current_balance := s.current_balance - c,
                         monthly_sent_this_month :=
                           s.monthly_sent_this_month + c }) (fun x => rfl)]

theorem redeem_ok_nonneg (st : Store) (sid : Nat) (c : Int)
    (now : DateTime) (red : Redemption) (st' : Store)
    (hok : redeem st sid c now = .ok (red, st'))
    (hnd : (st.students.map (fun s => s.id)).Nodup)
    (h : ∀ s ∈ st.students, 0 ≤ s.current_balance) :
    (∀ s ∈ st'.students, 0 ≤ s.current_balance) ∧
    st'.students.map (fun s => s.id) =
      st.students.map (fun s => s.id) := by
  cases hf : findStudent st sid with
  | none => simp [redeem, hf] at hok
  | some student =>
    by_cases hz : c ≤ 0
    · simp [redeem, hf, hz] at hok
    · by_cases hb : student.current_balance < c
      · simp [redeem, hf, hz, hb] at hok
      · simp only [redeem, hf, hz, hb, if_false, Except.ok.injEq,
          Prod.mk.injEq] at hok
        obtain ⟨-, hst⟩ := hok
        rw [← hst]
        refine ⟨?_, ?_⟩
        · apply nonneg_updStudents st.students sid _ h
          intro y hy hyi
          have hys : y = student :=
            find?_eq_of_nodup_mem st.students sid student y hnd hf hy hyi
          rw [hys]
          simp only []
          omega
        · show (updStudents _ _ _).map _ = _
          rw [updStudents_map_id _ sid (fun x =>
            { x with current_balance := x.current_balance - c })
            (fun x => rfl)]

theorem endorse_ok_students (st : Store) (rid eid : Nat) (now : DateTime)
    (e : Endorsement) (st' : Store)
    (hok : endorse st rid eid now = .ok (e, st')) :
    st'.students = st.students := by
  cases h1 : st.recognitions.find? (fun r => r.id == rid) with
  | none => simp [endorse, h1] at hok
  | some rec =>
    cases h2 : findStudent st eid with
    | none => simp [endorse, h1, h2] at hok
    | some e0 =>
      cases hdup : st.endorsements.find? (fun x =>
          x.recognition_id == rid && x.endorser_id == eid) with
      | some d => simp [endorse, h1, h2, hdup] at hok
      | none =>
        simp only [endorse, h1, h2, hdup, Except.ok.injEq,
          Prod.mk.injEq] at hok
        obtain ⟨-, hst⟩ := hok
        rw [← hst]

theorem ensure_nonneg (st : Store) (sid : Nat) (now : DateTime)
    (h : ∀ s ∈ st.students, 0 ≤ s.current_balance) :
    ∀ x ∈ (ensure_monthly_reset st sid now).2.students,
      0 ≤ x.current_balance := by
  cases hf : findStudent st sid with
  | none =>
    have : (ensure_monthly_reset st sid now).2 = st := by
      simp [ensure_monthly_reset, hf]
    rw [this]; exact h
  | some s =>
    cases hc : needsReset s now with
    | false =>
      have : (ensure_monthly_reset st sid now).2 = st := by
        simp [ensure_monthly_reset, hf, hc]
      rw [this]; exact h
    | true =>
      simp only [ensure_monthly_reset, hf, hc, if_true]
      apply nonneg_updStudents st.students sid _ h
      intro y hy _
      have hy0 := h y hy
      have hmin : 0 ≤ min (50 : Int) y.current_balance :=
        le_min (by norm_num) hy0
      simp only []
      omega

theorem runResetList_nonneg (now : DateTime) (ids : List Nat) (st : Store)
    (h : ∀ s ∈ st.students, 0 ≤ s.current_balance) :
    ∀ x ∈ (runResetList st ids now).2.students, 0 ≤ x.current_balance := by
  induction ids generalizing st with
  | nil => simpa [runResetList] using h
  | cons a t ih =>
    rw [runResetList_cons]
    exact ih _ (ensure_nonneg st a now h)

theorem applyOp_inv (st : Store) (op : Op)
    (hnd : (st.students.map (fun s => s.id)).Nodup)
    (h : ∀ s ∈ st.students, 0 ≤ s.current_balance)
    (hpos : opPosCredits op) :
    (∀ s ∈ (applyOp st op).students, 0 ≤ s.current_balance) ∧
    (applyOp st op).students.map (fun s => s.id) =
      st.students.map (fun s => s.id) := by
  cases op with
  | createRec a b c m now =>
    simp only [applyOp]
    cases hok : create_recognition st a b c m now with
    | error e => exact ⟨h, rfl⟩
    | ok p =>
      exact create_ok_nonneg st a b c m now p.1 p.2
        (by rw [hok]) hnd hpos h
  | endorseOp r e now =>
    simp only [applyOp]
    cases hok : endorse st r e now with
    | error err => exact ⟨h, rfl⟩
    | ok p =>
      rw [endorse_ok_students st r e now p.1 p.2 (by rw [hok])]
      exact ⟨h, rfl⟩
  | redeemOp sid c now =>
    simp only [applyOp]
    cases hok : redeem st sid c now with
    | error err => exact ⟨h, rfl⟩
    | ok p =>
      exact redeem_ok_nonneg st sid c now p.1 p.2 (by rw [hok]) hnd h
  | ensureResetOp sid now =>
    exact ⟨ensure_nonneg st sid now h, ensure_map_id st sid now⟩
  | runAllResetsOp now =>
    exact ⟨runResetList_nonneg now _ st h, runResetList_map_id now _ st⟩

/-- Claim C9: starting from any store with unique student ids and
non-negative balances, any sequence of committed operations — create
recognition, endorse, redeem, per-student reset, batch reset — with
positive credit amounts keeps every student's `current_balance`
non-negative. -/
theorem balances_nonneg_invariant (ops : List Op) (st : Store)
    (hnd : (st.students.map (fun s => s.id)).Nodup)
    (h0 : ∀ s ∈ st.students, 0 ≤ s.current_balance)
    (hpos : ∀ op ∈ ops, opPosCredits op) :
    ∀ s ∈ (ops.foldl applyOp st).students, 0 ≤ s.current_balance := by
  induction ops generalizing st with
  | nil => exact h0
  | cons op t ih =>
    simp only [List.foldl_cons]
    have hstep := applyOp_inv st op hnd h0 (hpos op (List.mem_cons_self op t))
    exact ih (applyOp st op) (by rw [hstep.2]; exact hnd) hstep.1
      (fun o ho => hpos o (List.mem_cons_of_mem op ho))

theorem balances_nonneg_invariant_witness :
    ((demoStore.students.map (fun s => s.id)).Nodup ∧
      (∀ s ∈ demoStore.students, 0 ≤ s.current_balance)) ∧
    ∀ s ∈ ([Op.createRec 1 2 30 (some "thanks") dt1,
            Op.redeemOp 2 50 dt2, Op.endorseOp 1 1 dt2,
            Op.ensureResetOp 1 dt3,
            Op.runAllResetsOp dt3].foldl applyOp demoStore).students,
      0 ≤ s.current_balance := by
  refine ⟨⟨by decide, by decide⟩, ?_⟩
  apply balances_nonneg_invariant _ demoStore (by decide) (by decide)
  intro op hop
  fin_cases hop <;> simp [opPosCredits]



theorem joinBlock_fst (st : Store) (r : Recognition)
    (o : Option Nat × Option Nat) (ho : o ∈ joinBlock st r) :
    o.1 = some r.id := by
  unfold joinBlock at ho
  by_cases h : (st.endorsements.filter
      (fun e => e.recognition_id == r.id)).isEmpty
  · simp only [h, if_true, List.mem_singleton] at ho
    rw [ho]
  · simp only [h, Bool.false_eq_true, if_false, List.mem_map] at ho
    obtain ⟨e, -, rfl⟩ := ho
    rfl

theorem joinBlock_ne_nil (st : Store) (r : Recognition) :
    joinBlock st r ≠ [] := by
  unfold joinBlock
  by_cases h : (st.endorsements.filter
      (fun e => e.recognition_id == r.id)).isEmpty
  · simp [h]
  · simp only [h, Bool.false_eq_true, if_false, Ne]
    rw [List.isEmpty_iff] at h
    intro hmap
    exact h (by simpa using hmap)

theorem joinBlock_fst_exists (st : Store) (r : Recognition) :
    ∃ o ∈ joinBlock st r, o.1 = some r.id := by
  cases hb : joinBlock st r with
  | nil => exact absurd hb (joinBlock_ne_nil st r)
  | cons o t =>
    refine ⟨o, List.mem_cons_self o t, ?_⟩
    exact joinBlock_fst st r o (by rw [hb]; exact List.mem_cons_self o t)

theorem joinBlock_snd (st : Store) (r : Recognition) (x : Nat) :
    (∃ o ∈ joinBlock st r, o.2 = some x) ↔
      ∃ e ∈ st.endorsements, e.recognition_id = r.id ∧ e.id = x := by
  unfold joinBlock
  by_cases h : (st.endorsements.filter
      (fun e => e.recognition_id == r.id)).isEmpty
  · rw [List.isEmpty_iff] at h
    simp only [List.isEmpty_iff, h, if_true, List.mem_singleton]
    constructor
    · rintro ⟨o, rfl, ho⟩
      exact Option.noConfusion ho
    · rintro ⟨e, he, hrec, -⟩
      have : e ∈ st.endorsements.filter
          (fun e => e.recognition_id == r.id) :=
        List.mem_filter.mpr ⟨he, by simp [hrec]⟩
      rw [h] at this
      exact absurd this (List.not_mem_nil e)
  · simp only [h, Bool.false_eq_true, if_false, List.mem_map]
    constructor
    · rintro ⟨o, ⟨e, he, rfl⟩, ho⟩
      have := List.mem_filter.mp he
      simp only [beq_iff_eq] at this
      cases Option.some_inj.mp ho
      exact ⟨e, this.1, this.2, rfl⟩
    · rintro ⟨e, he, hrec, rfl⟩
      exact ⟨(some r.id, some e.id),
        ⟨e, List.mem_filter.mpr ⟨he, by simp [hrec]⟩, rfl⟩, rfl⟩

theorem mem_joinRows_fst (st : Store) (s : Student) (x : Nat) :
    x ∈ ((joinRowsFor st s).map Prod.fst).filterMap id ↔
      x ∈ (st.recognitions.filter
        (fun r => r.receiver_id == s.id)).map (fun r => r.id) := by
  unfold joinRowsFor
  by_cases hrs : (st.recognitions.filter
      (fun r => r.receiver_id == s.id)).isEmpty
  · rw [List.isEmpty_iff] at hrs
    simp [List.isEmpty_iff, hrs]
  · simp only [hrs, Bool.false_eq_true, if_false]
    simp only [List.mem_filterMap, List.mem_map, List.mem_flatMap,
      id_eq]
    constructor
    · rintro ⟨o, ⟨row, ⟨r, hr, hrow⟩, rfl⟩, hid⟩
      have := joinBlock_fst st r row hrow
      exact ⟨r, hr, by rw [this] at hid; exact Option.some_inj.mp hid⟩
    · rintro ⟨r, hr, rfl⟩
      obtain ⟨o, ho, hfst⟩ := joinBlock_fst_exists st r
      exact ⟨o.1, ⟨o, ⟨r, hr, ho⟩, rfl⟩, by rw [hfst]⟩

theorem mem_joinRows_snd (st : Store) (s : Student) (x : Nat) :
    x ∈ ((joinRowsFor st s).map Prod.snd).filterMap id ↔
      ∃ e ∈ st.endorsements, e.id = x ∧ ∃ r ∈ st.recognitions,
        r.receiver_id = s.id ∧ r.id = e.recognition_id := by
  unfold joinRowsFor
  by_cases hrs : (st.recognitions.filter
      (fun r => r.receiver_id == s.id)).isEmpty
  · rw [List.isEmpty_iff] at hrs
    simp only [List.isEmpty_iff, hrs, if_true]
    constructor
    · intro h
      simp at h
    · rintro ⟨e, -, -, r, hr, hrecv, -⟩
      have : r ∈ st.recognitions.filter
          (fun r => r.receiver_id == s.id) :=
        List.mem_filter.mpr ⟨hr, by simp [hrecv]⟩
      rw [hrs] at this
      exact absurd this (List.not_mem_nil r)
  · simp only [hrs, Bool.false_eq_true, if_false]
    simp only [List.mem_filterMap, List.mem_map, List.mem_flatMap,
      id_eq]
    constructor
    · rintro ⟨o, ⟨row, ⟨r, hr, hrow⟩, rfl⟩, hid⟩
      have hsnd : (∃ o ∈ joinBlock st r, o.2 = some x) :=
        ⟨row, hrow, by rw [← hid]⟩
      obtain ⟨e, he, herec, heid⟩ := (joinBlock_snd st r x).mp hsnd
      have hrf := List.mem_filter.mp hr
      simp only [beq_iff_eq] at hrf
      exact ⟨e, he, heid, r, hrf.1, hrf.2, herec.symm⟩
    · rintro ⟨e, he, rfl, r, hr, hrecv, hrid⟩
      obtain ⟨o, ho, hsnd⟩ :=
        (joinBlock_snd st r e.id).mpr ⟨e, he, hrid.symm, rfl⟩
      refine ⟨o.2, ⟨o, ⟨r, List.mem_filter.mpr ⟨hr, by simp [hrecv]⟩,
        ho⟩, rfl⟩, hsnd⟩



theorem lbRow_recognition_count (st : Store) (s : Student)
    (hrid : (st.recognitions.map (fun r => r.id)).Nodup) :
    (lbRow st s).recognition_count = recCount st s.id := by
  show countDistinct ((joinRowsFor st s).map Prod.fst) = _
  unfold countDistinct recCount
  have hfin : (((joinRowsFor st s).map Prod.fst).filterMap id).toFinset =
      ((st.recognitions.filter (fun r => r.receiver_id == s.id)).map
        (fun r => r.id)).toFinset := by
    apply Finset.ext
    intro x
    rw [List.mem_toFinset, List.mem_toFinset]
    exact mem_joinRows_fst st s x
  have hnd : ((st.recognitions.filter
      (fun r => r.receiver_id == s.id)).map (fun r => r.id)).Nodup :=
    List.Nodup.sublist ((List.filter_sublist _).map _) hrid
  calc (((joinRowsFor st s).map Prod.fst).filterMap id).dedup.length
      = (((joinRowsFor st s).map Prod.fst).filterMap id).toFinset.card :=
        (List.card_toFinset _).symm
    _ = ((st.recognitions.filter (fun r => r.receiver_id == s.id)).map
          (fun r => r.id)).toFinset.card := by rw [hfin]
    _ = ((st.recognitions.filter (fun r => r.receiver_id == s.id)).map
          (fun r => r.id)).dedup.length := List.card_toFinset _
    _ = ((st.recognitions.filter (fun r => r.receiver_id == s.id)).map
          (fun r => r.id)).length := by rw [hnd.dedup]
    _ = (st.recognitions.filter
          (fun r => r.receiver_id == s.id)).length := List.length_map _ _

theorem lbRow_endorsement_count (st : Store) (s : Student)
    (heid : (st.endorsements.map (fun e => e.id)).Nodup) :
    (lbRow st s).endorsement_count = endCount st s.id := by
  show countDistinct ((joinRowsFor st s).map Prod.snd) = _
  unfold countDistinct endCount
  have hfin : (((joinRowsFor st s).map Prod.snd).filterMap id).toFinset =
      ((st.endorsements.filter (fun e => st.recognitions.any (fun r =>
        r.id == e.recognition_id && r.receiver_id == s.id))).map
          (fun e => e.id)).toFinset := by
    apply Finset.ext
    intro x
    rw [List.mem_toFinset, List.mem_toFinset, mem_joinRows_snd]
    constructor
    · rintro ⟨e, he, rfl, r, hr, hrecv, hrid2⟩
      refine List.mem_map.mpr ⟨e, List.mem_filter.mpr ⟨he, ?_⟩, rfl⟩
      rw [List.any_eq_true]
      exact ⟨r, hr, by simp [hrid2, hrecv]⟩
    · intro hx
      obtain ⟨e, hef, rfl⟩ := List.mem_map.mp hx
      obtain ⟨he, hqe⟩ := List.mem_filter.mp hef
      rw [List.any_eq_true] at hqe
      obtain ⟨r, hr, hpr⟩ := hqe
      simp only [Bool.and_eq_true, beq_iff_eq] at hpr
      exact ⟨e, he, rfl, r, hr, hpr.2, hpr.1⟩
  have hnd2 : ((st.endorsements.filter (fun e => st.recognitions.any
      (fun r => r.id == e.recognition_id && r.receiver_id == s.id))).map
        (fun e => e.id)).Nodup :=
    List.Nodup.sublist ((List.filter_sublist _).map _) heid
  calc (((joinRowsFor st s).map Prod.snd).filterMap id).dedup.length
      = (((joinRowsFor st s).map Prod.snd).filterMap id).toFinset.card :=
        (List.card_toFinset _).symm
    _ = ((st.endorsements.filter (fun e => st.recognitions.any (fun r =>
          r.id == e.recognition_id && r.receiver_id == s.id))).map
            (fun e => e.id)).toFinset.card := by rw [hfin]
    _ = ((st.endorsements.filter (fun e => st.recognitions.any (fun r =>
          r.id == e.recognition_id && r.receiver_id == s.id))).map
            (fun e => e.id)).dedup.length := List.card_toFinset _
    _ = ((st.endorsements.filter (fun e => st.recognitions.any (fun r =>
          r.id == e.recognition_id && r.receiver_id == s.id))).map
            (fun e => e.id)).length := by rw [hnd2.dedup]
    _ = (st.endorsements.filter (fun e => st.recognitions.any (fun r =>
          r.id == e.recognition_id && r.receiver_id == s.id))).length :=
        List.length_map _ _

theorem lbLe_total (a b : LBEntry) : (lbLe a b || lbLe b a) = true := by
  simp only [lbLe, Bool.or_eq_true, Bool.and_eq_true, decide_eq_true_eq,
    beq_iff_eq]
  omega

theorem lbLe_trans (a b c : LBEntry) (hab : lbLe a b) (hbc : lbLe b c) :
    lbLe a c := by
  simp only [lbLe, Bool.or_eq_true, Bool.and_eq_true, decide_eq_true_eq,
    beq_iff_eq] at hab hbc ⊢
  omega



/-- Claim C8: `leaderboard limit` returns at most `limit` entries,
strictly ordered by `credits_received_total` descending with ties
broken by student id ascending (endorsement counts never influence the
order); every entry belongs to a student and carries that student's
stored total, the number of distinct recognitions received, and the
number of distinct endorsements on recognitions received; and whenever
`limit` covers all students, every student — including those with zero
recognitions and endorsements — appears with those counts. -/
theorem leaderboard_spec (st : Store) (limit : Nat) (_hpos : 0 < limit)
    (hsid : (st.students.map (fun s => s.id)).Nodup)
    (hrid : (st.recognitions.map (fun r => r.id)).Nodup)
    (heid : (st.endorsements.map (fun e => e.id)).Nodup) :
    (leaderboard st limit).length ≤ limit ∧
    (leaderboard st limit).Pairwise (fun a b =>
      b.credits_received_total < a.credits_received_total ∨
      (a.credits_received_total = b.credits_received_total ∧
        a.student_id < b.student_id)) ∧
    (∀ en ∈ leaderboard st limit, ∃ s ∈ st.students,
      en.student_id = s.id ∧ en.name = s.name ∧
      en.credits_received_total = s.credits_received_total ∧
      en.recognition_count = recCount st s.id ∧
      en.endorsement_count = endCount st s.id) ∧
    (st.students.length ≤ limit → ∀ s ∈ st.students,
      ∃ en ∈ leaderboard st limit, en.student_id = s.id ∧
        en.credits_received_total = s.credits_received_total ∧
        en.recognition_count = recCount st s.id ∧
        en.endorsement_count = endCount st s.id) := by
  have hsorted : ((st.students.map (lbRow st)).mergeSort lbLe).Pairwise
      (fun a b => lbLe a b) :=
    List.sorted_mergeSort (fun a b c => lbLe_trans a b c) lbLe_total _
  have hP : (leaderboard st limit).Pairwise (fun a b => lbLe a b) :=
    List.Pairwise.sublist (List.take_sublist _ _) hsorted
  have hmapid : (st.students.map (lbRow st)).map
      (fun en => en.student_id) = st.students.map (fun s => s.id) := by
    rw [List.map_map]
    rfl
  have hnodup_sorted : (((st.students.map (lbRow st)).mergeSort
      lbLe).map (fun en => en.student_id)).Nodup := by
    have hperm := (List.mergeSort_perm (st.students.map (lbRow st))
      lbLe).map (fun en => en.student_id)
    rw [hperm.nodup_iff, hmapid]
    exact hsid
  have hnodup_take : ((leaderboard st limit).map
      (fun en => en.student_id)).Nodup :=
    List.Nodup.sublist ((List.take_sublist _ _).map _) hnodup_sorted
  have hne : (leaderboard st limit).Pairwise
      (fun a b => a.student_id ≠ b.student_id) :=
    List.pairwise_map.mp hnodup_take
  refine ⟨?_, ?_, ?_, ?_⟩
  · show (List.take limit _).length ≤ limit
    rw [List.length_take]
    exact Nat.min_le_left _ _
  · refine (hP.and hne).imp ?_
    intro a b hab
    obtain ⟨h1, h2⟩ := hab
    simp only [lbLe, Bool.or_eq_true, Bool.and_eq_true,
      decide_eq_true_eq, beq_iff_eq] at h1
    omega
  · intro en hen
    have hen2 : en ∈ st.students.map (lbRow st) :=
      List.mem_mergeSort.mp (List.mem_of_mem_take hen)
    obtain ⟨s, hs, rfl⟩ := List.mem_map.mp hen2
    exact ⟨s, hs, rfl, rfl, rfl, lbRow_recognition_count st s hrid,
      lbRow_endorsement_count st s heid⟩
  · intro hlen s hs
    have hfull : leaderboard st limit =
        (st.students.map (lbRow st)).mergeSort lbLe := by
      show List.take limit _ = _
      apply List.take_of_length_le
      rw [List.length_mergeSort, List.length_map]
      exact hlen
    refine ⟨lbRow st s, ?_, rfl, rfl,
      lbRow_recognition_count st s hrid,
      lbRow_endorsement_count st s heid⟩
    rw [hfull]
    exact List.mem_mergeSort.mpr (List.mem_map_of_mem _ hs)

theorem leaderboard_spec_witness :
    ((0 < 2) ∧ (demoStore2.students.map (fun s => s.id)).Nodup ∧
      (demoStore2.recognitions.map (fun r => r.id)).Nodup ∧
      (demoStore2.endorsements.map (fun e => e.id)).Nodup) ∧
    (leaderboard demoStore2 2).length ≤ 2 ∧
    (∀ en ∈ leaderboard demoStore2 2, ∃ s ∈ demoStore2.students,
      en.student_id = s.id ∧ en.name = s.name ∧
      en.credits_received_total = s.credits_received_total ∧
      en.recognition_count = recCount demoStore2 s.id ∧
      en.endorsement_count = endCount demoStore2 s.id) := by
  have h := leaderboard_spec demoStore2 2 (by decide) (by decide)
    (by decide) (by decide)
  exact ⟨⟨by decide, by decide, by decide, by decide⟩, h.1, h.2.2.1⟩


end Ledger
